import Mathlib

/-!
Shallow embedding of the TrackWise inventory application
(`src/accounts/views.py` and `src/trackwise/inventory/views.py`).

The database is modelled as a list of `Product` rows plus a list of account
usernames.  Each Django view becomes a pure function from the request data and
the database to a response value and the new database.  Exceptions that a view
catches (`Product.DoesNotExist`, `UserProfile.DoesNotExist`) are modelled with
`Option`; an exception that no view code catches (the `TypeError` in
`register_view` when `password1` is absent) is modelled with an explicit
`crash` result.
-/

/-- HTTP method of a request. -/
inductive Method
  | get
  | post
deriving DecidableEq

/-- A row of the `Product` table.  The model class itself is not under `src/`;
the fields are the ones used by `inventory/views.py` (`item_name`, `category`,
`cost_price`, `quantity`, `company`, primary key `pk`), with types from spec
§3 ("quantity (non-negative integer)", `cost_price` a number, modelled as
`Int`).  `company` and `pk` are modelled as numeric identifiers. -/
structure Product where
  pk : Nat
  item_name : String
  category : String
  cost_price : Int
  quantity : Int
  company : Nat
deriving DecidableEq

/-- Modelled from the spec: `Product.total_value` is defined in the missing
`inventory/models.py`; spec §3 gives the derived attribute
`total_value = cost_price * quantity`. -/
def total_value (p : Product) : Int := p.cost_price * p.quantity

/-- Modelled from the spec: `Product.get_display_quantity` lives in the missing
`inventory/models.py`; spec §4.6 only calls it "a formatted display quantity",
so it is rendered here as the decimal string of the quantity. -/
def get_display_quantity (p : Product) : String := toString p.quantity

/-- The `UserProfile` record of the acting account: a company and a role
string (`"business_owner"` or `"staff"`; the views only ever compare the role
against `"business_owner"`). -/
structure Profile where
  company : Nat
  role : String
deriving DecidableEq

/-- `Product.objects.get(pk=pk, company=c)` / `get_object_or_404`: the first
row matching both the primary key and the company, if any. -/
def getProduct (db : List Product) (pk c : Nat) : Option Product :=
  db.find? (fun p => p.pk == pk && p.company == c)

/-- `product.save()` on an existing row: `UPDATE` of every row with this
primary key (with a unique primary key, exactly one row). -/
def saveProduct (db : List Product) (p : Product) : List Product :=
  db.map (fun q => if q.pk == p.pk then p else q)

/-- `product.delete()`: remove the row(s) with this primary key. -/
def deleteProduct (db : List Product) (pk : Nat) : List Product :=
  db.filter (fun q => !(q.pk == pk))

/-- A fresh primary key assigned by the database on `INSERT`. -/
def freshPk (db : List Product) : Nat :=
  (db.foldr (fun p m => max p.pk m) 0) + 1

/-- The database invariant that `pk` is a primary key: no two rows share it. -/
def uniquePks (db : List Product) : Prop :=
  (db.map Product.pk).Nodup

instance (db : List Product) : Decidable (uniquePks db) := by
  unfold uniquePks; infer_instance

/-- The rows of the database that belong to companies other than `c`. -/
def othersOf (db : List Product) (c : Nat) : List Product :=
  db.filter (fun p => !(p.company == c))

/-- Case-insensitive substring test: the embedding of the Django ORM
`icontains` lookup used at `inventory/views.py:25-26`. -/
def strContains (hay needle : String) : Bool :=
  (hay.toLower.toList).tails.any (fun t => (needle.toLower.toList).isPrefixOf t)

/-- The search predicate of `inventory_list`:
`Q(item_name__icontains=s) | Q(category__icontains=s)`. -/
def matchesSearch (s : String) (p : Product) : Bool :=
  strContains p.item_name s || strContains p.category s

/-- `Product.objects.filter(company=profile.company)`. -/
def companyProducts (db : List Product) (c : Nat) : List Product :=
  db.filter (fun p => p.company == c)

/-- `if search_query: products = products.filter(Q(...) | Q(...))`; the empty
string is falsy in Python, so no filter is applied then. -/
def searchFiltered (s : String) (ps : List Product) : List Product :=
  if s == "" then ps else ps.filter (matchesSearch s)

/-- `cost_filter == 'low'` orders by ascending `cost_price`, `'high'` by
descending `cost_price`, anything else leaves the order unchanged. -/
def applyCostFilter (cf : String) (ps : List Product) : List Product :=
  if cf == "low" then ps.mergeSort (fun a b => decide (a.cost_price ≤ b.cost_price))
  else if cf == "high" then ps.mergeSort (fun a b => decide (b.cost_price ≤ a.cost_price))
  else ps

/-- The product queryset finally handed to the template by `inventory_list`. -/
def visibleProducts (db : List Product) (c : Nat) (search cf : String) : List Product :=
  applyCostFilter cf (searchFiltered search (companyProducts db c))

/-- The template context built by `inventory_list` (`inventory/views.py:39-45`). -/
structure ListContext where
  products : List Product
  search_query : String
  cost_filter : String
  total_inventory_value : Int
deriving DecidableEq

/-- Response of `inventory_list`: redirect to the dashboard when the profile
is missing, otherwise a rendered page (`ownerView` distinguishes the owner
template from the staff template). -/
inductive ListResponse
  | profileMissing
  | page (ownerView : Bool) (ctx : ListContext)
deriving DecidableEq

/-- `inventory_list` (`inventory/views.py:10-51`). -/
def inventory_list (db : List Product) (prof : Option Profile)
    (search cost_filter : String) : ListResponse :=
  match prof with
  | none => .profileMissing
  | some profile =>
    let products := visibleProducts db profile.company search cost_filter
    .page (profile.role == "business_owner")
      { products := products
        search_query := search
        cost_filter := cost_filter
        total_inventory_value := (products.map total_value).sum }

/-- Modelled from the spec: `ProductForm` lives in the missing
`inventory/forms.py`.  Per spec §4.5 the company "must never be
client-controlled", so a validated form carries the editable fields only;
`pk` and `company` of an edited instance are untouched by the form. -/
structure ProductFormData where
  item_name : String
  category : String
  cost_price : Int
  quantity : Int
deriving DecidableEq

/-- `form.save()` on a form bound to an existing instance: overwrite the
editable fields, keep `pk` and `company`. -/
def applyForm (p : Product) (f : ProductFormData) : Product :=
  { p with item_name := f.item_name, category := f.category,
           cost_price := f.cost_price, quantity := f.quantity }

/-- Response of `product_detail`. -/
inductive DetailResponse
  | profileMissing
  | notFound
  | accessDenied
  | updated (item_name : String)
  | page (ownerView : Bool) (product : Product)
deriving DecidableEq

/-- `product_detail` (`inventory/views.py:53-88`).  `form` is the outcome of
validating the POST data: `some f` when `form.is_valid()`, `none` when the
form does not validate (the view then falls through and re-renders the page).
It is ignored on GET. -/
def product_detail (db : List Product) (prof : Option Profile) (method : Method)
    (pk : Nat) (form : Option ProductFormData) : DetailResponse × List Product :=
  match prof with
  | none => (.profileMissing, db)
  | some profile =>
    match getProduct db pk profile.company with
    | none => (.notFound, db)
    | some product =>
      match method with
      | .post =>
        if profile.role != "business_owner" then (.accessDenied, db)
        else
          match form with
          | some f => (.updated (applyForm product f).item_name,
                       saveProduct db (applyForm product f))
          | none => (.page (profile.role == "business_owner") product, db)
      | .get => (.page (profile.role == "business_owner") product, db)

/-- Response of `product_add`. -/
inductive AddResponse
  | profileMissing
  | added (item_name : String)
  | page
deriving DecidableEq

/-- `product_add` (`inventory/views.py:90-114`).  `form` is the unsaved
instance produced by `form.save(commit=False)` when the form validates: a
full `Product` row built from client data, whose `company` field holds
whatever the client-side data produced.  The view then overwrites
`product.company` with the profile's company (`views.py:103`) before saving;
the database assigns the fresh primary key. -/
def product_add (db : List Product) (prof : Option Profile) (method : Method)
    (form : Option Product) : AddResponse × List Product :=
  match prof with
  | none => (.profileMissing, db)
  | some profile =>
    match method with
    | .post =>
      match form with
      | some unsaved =>
        (.added unsaved.item_name,
         db ++ [{ unsaved with company := profile.company, pk := freshPk db }])
      | none => (.page, db)
    | .get => (.page, db)

/-- Response of `product_delete`.  A missing profile and a missing product hit
the same `except` clause (`views.py:169-171`): "Product not found." plus a
redirect to the inventory list. -/
inductive DeleteResponse
  | notFoundRedirect
  | accessDenied
  | deleted (item_name : String)
  | confirmPage (product : Product)
deriving DecidableEq

/-- `product_delete` (`inventory/views.py:153-177`). -/
def product_delete (db : List Product) (prof : Option Profile) (method : Method)
    (pk : Nat) : DeleteResponse × List Product :=
  match prof with
  | none => (.notFoundRedirect, db)
  | some profile =>
    match getProduct db pk profile.company with
    | none => (.notFoundRedirect, db)
    | some product =>
      if profile.role != "business_owner" then (.accessDenied, db)
      else
        match method with
        | .post => (.deleted product.item_name, deleteProduct db product.pk)
        | .get => (.confirmPage product, db)

/-- JSON response of the stock endpoints: `ok` is
`{success: true, new_quantity, display_quantity, total_value}`, `notFound` is
`{success: false, error: 'Product not found'}`, `invalid` is
`{success: false, error: 'Invalid request'}`. -/
inductive StockResponse
  | ok (new_quantity : Int) (display_quantity : String) (tv : Int)
  | notFound
  | invalid
deriving DecidableEq

/-- `increase_stock` (`inventory/views.py:116-132`). -/
def increase_stock (db : List Product) (prof : Option Profile) (method : Method)
    (pk : Nat) : StockResponse × List Product :=
  match method with
  | .post =>
    match prof with
    | none => (.notFound, db)
    | some profile =>
      match getProduct db pk profile.company with
      | none => (.notFound, db)
      | some product =>
        (.ok (product.quantity + 1)
             (get_display_quantity { product with quantity := product.quantity + 1 })
             (total_value { product with quantity := product.quantity + 1 }),
         saveProduct db { product with quantity := product.quantity + 1 })
  | .get => (.invalid, db)

/-- `decrease_stock` (`inventory/views.py:134-151`): the decrement only
happens when `quantity > 0`; either way the response reports success with the
(possibly unchanged) quantity. -/
def decrease_stock (db : List Product) (prof : Option Profile) (method : Method)
    (pk : Nat) : StockResponse × List Product :=
  match method with
  | .post =>
    match prof with
    | none => (.notFound, db)
    | some profile =>
      match getProduct db pk profile.company with
      | none => (.notFound, db)
      | some product =>
        if product.quantity > 0 then
          (.ok (product.quantity - 1)
               (get_display_quantity { product with quantity := product.quantity - 1 })
               (total_value { product with quantity := product.quantity - 1 }),
           saveProduct db { product with quantity := product.quantity - 1 })
        else
          (.ok product.quantity (get_display_quantity product) (total_value product), db)
  | .get => (.invalid, db)

/-- Outcome of `register_view`: one constructor per redirect/render branch,
plus `crash` for an exception the view does not catch. -/
inductive RegResult
  | renderForm
  | duplicateUsername
  | passwordTooShort
  | passwordMismatch
  | success
  | crash
deriving DecidableEq

/-- `User.objects.filter(username=username).exists()`.  A `None` username
(absent POST field) matches no row: stored usernames are never NULL. -/
def usernameTaken (accounts : List String) (username : Option String) : Bool :=
  match username with
  | none => false
  | some u => accounts.contains u

/-- `register_view` (`accounts/views.py:12-39`).  The POST fields arrive via
`request.POST.get`, hence `Option String` (`none` models Python `None` for an
absent field).  `len(password1)` with `password1 = None` raises `TypeError`
(crash); `create_user` with a falsy username — `None` or the empty string —
raises `ValueError` (crash), so no account row is written on that path. -/
def register_view (accounts : List String) (method : Method)
    (username password1 password2 : Option String) : RegResult × List String :=
  match method with
  | .get => (.renderForm, accounts)
  | .post =>
    if usernameTaken accounts username then (.duplicateUsername, accounts)
    else
      match password1 with
      | none => (.crash, accounts)
      | some p1 =>
        if p1.length < 8 then (.passwordTooShort, accounts)
        else if (some p1 : Option String) != password2 then (.passwordMismatch, accounts)
        else
          match username with
          | some u => if u = "" then (.crash, accounts) else (.success, accounts ++ [u])
          | none => (.crash, accounts)

/-- The database after `n` consecutive POSTs to `increase_stock` for `pk`. -/
def incIter (prof : Option Profile) (pk : Nat) : Nat → List Product → List Product
  | 0, db => db
  | n + 1, db => incIter prof pk n (increase_stock db prof .post pk).2

/-- The database after `n` consecutive POSTs to `decrease_stock` for `pk`. -/
def decIter (prof : Option Profile) (pk : Nat) : Nat → List Product → List Product
  | 0, db => db
  | n + 1, db => decIter prof pk n (decrease_stock db prof .post pk).2

/-! ### Helper lemmas about the database primitives -/

theorem getProduct_mem {db : List Product} {pk c : Nat} {p : Product}
    (h : getProduct db pk c = some p) : p ∈ db ∧ p.pk = pk ∧ p.company = c := by
  unfold getProduct at h
  have hmem := List.mem_of_find?_eq_some h
  have hprop := List.find?_some h
  simp only [Bool.and_eq_true, beq_iff_eq] at hprop
  exact ⟨hmem, hprop.1, hprop.2⟩

theorem eq_of_uniquePks {db : List Product} (hu : uniquePks db) {p q : Product}
    (hp : p ∈ db) (hq : q ∈ db) (hpk : p.pk = q.pk) : p = q :=
  List.inj_on_of_nodup_map hu hp hq hpk

theorem getProduct_eq_none_of_cross {db : List Product} {pk c : Nat} {p : Product}
    (hu : uniquePks db) (hp : p ∈ db) (hpk : p.pk = pk) (hc : p.company ≠ c) :
    getProduct db pk c = none := by
  unfold getProduct
  rw [List.find?_eq_none]
  intro q hq
  simp only [Bool.and_eq_true, beq_iff_eq, not_and]
  intro hqpk
  have : q = p := eq_of_uniquePks hu hq hp (by rw [hqpk, hpk])
  rw [this]
  exact hc

theorem own_pk_of_get {db : List Product} {pk c : Nat} {p0 : Product}
    (hu : uniquePks db) (h : getProduct db pk c = some p0) :
    ∀ q ∈ db, q.pk = p0.pk → q = p0 := by
  intro q hq hpk
  exact eq_of_uniquePks hu hq (getProduct_mem h).1 hpk

theorem map_pk_saveProduct (db : List Product) (p' : Product) :
    (saveProduct db p').map Product.pk = db.map Product.pk := by
  induction db with
  | nil => rfl
  | cons q t ih =>
    simp only [saveProduct, List.map_cons] at ih ⊢
    rw [ih]
    by_cases h : q.pk = p'.pk
    · simp [h]
    · simp [h]

theorem uniquePks_saveProduct {db : List Product} (hu : uniquePks db) (p' : Product) :
    uniquePks (saveProduct db p') := by
  unfold uniquePks
  rw [map_pk_saveProduct]
  exact hu

theorem getProduct_saveProduct {db : List Product} {pk c : Nat} {p' : Product}
    (hpk : p'.pk = pk) (hc : p'.company = c) (h : (getProduct db pk c).isSome) :
    getProduct (saveProduct db p') pk c = some p' := by
  induction db with
  | nil => simp [getProduct] at h
  | cons q t ih =>
    rw [getProduct, saveProduct, List.map_cons]
    by_cases hq : q.pk = p'.pk
    · rw [if_pos (by simpa using hq)]
      rw [List.find?_cons_of_pos _ (by simp [hpk, hc])]
    · rw [if_neg (by simpa using hq)]
      have hqpk : ¬ q.pk = pk := by rw [← hpk]; exact hq
      have hq2 : ¬ ((q.pk == pk && q.company == c) = true) := by simp [hqpk]
      rw [List.find?_cons_of_neg (p := fun r : Product => r.pk == pk && r.company == c) _ hq2]
      have h2 : (getProduct t pk c).isSome := by
        rw [getProduct, List.find?_cons_of_neg (p := fun r : Product => r.pk == pk && r.company == c) _ hq2] at h
        exact h
      exact ih h2

theorem othersOf_saveProduct {db : List Product} {c : Nat} {p' : Product}
    (hc : p'.company = c) (hall : ∀ q ∈ db, q.pk = p'.pk → q.company = c) :
    othersOf (saveProduct db p') c = othersOf db c := by
  unfold othersOf saveProduct
  rw [List.filter_map]
  have h1 : List.filter
        ((fun p => !(p.company == c)) ∘ (fun q => if q.pk == p'.pk then p' else q)) db
      = List.filter (fun p => !(p.company == c)) db := by
    apply List.filter_congr
    intro a ha
    by_cases hpk : a.pk = p'.pk
    · have hac := hall a ha hpk
      simp [Function.comp, hpk, hc, hac]
    · simp [Function.comp, hpk]
  rw [h1]
  have h2 : ∀ a ∈ List.filter (fun p => !(p.company == c)) db,
      (fun q => if q.pk == p'.pk then p' else q) a = id a := by
    intro a ha
    rw [List.mem_filter] at ha
    by_cases hpk : a.pk = p'.pk
    · exfalso
      have hac := hall a ha.1 hpk
      simp [hac] at ha
    · simp [hpk]
  rw [List.map_congr_left h2, List.map_id]

theorem othersOf_deleteProduct {db : List Product} {c pk : Nat}
    (hall : ∀ q ∈ db, q.pk = pk → q.company = c) :
    othersOf (deleteProduct db pk) c = othersOf db c := by
  unfold othersOf deleteProduct
  rw [List.filter_filter]
  apply List.filter_congr
  intro a ha
  by_cases hpk : a.pk = pk
  · have hac := hall a ha hpk
    simp [hpk, hac]
  · simp [hpk]

theorem othersOf_append_own {db : List Product} {c : Nat} {p : Product}
    (hc : p.company = c) : othersOf (db ++ [p]) c = othersOf db c := by
  simp [othersOf, List.filter_append, hc]

theorem saveProduct_self {db : List Product} {p : Product}
    (hall : ∀ q ∈ db, q.pk = p.pk → q = p) : saveProduct db p = db := by
  induction db with
  | nil => rfl
  | cons q t ih =>
    have ih2 := ih (fun r hr => hall r (List.mem_cons_of_mem q hr))
    by_cases hq : q.pk = p.pk
    · have : q = p := hall q (List.mem_cons_self q t) hq
      simp [saveProduct, hq, this] at ih2 ⊢
      exact ih2
    · simp [saveProduct, hq] at ih2 ⊢
      exact ih2

theorem saveProduct_saveProduct {db : List Product} {p1 p2 : Product}
    (h : p1.pk = p2.pk) :
    saveProduct (saveProduct db p1) p2 = saveProduct db p2 := by
  induction db with
  | nil => rfl
  | cons q t ih =>
    by_cases hq : q.pk = p1.pk
    · simp [saveProduct, hq, h, hq.trans h] at ih ⊢
      exact ih
    · have hq2 : ¬ q.pk = p2.pk := by rw [← h]; exact hq
      simp [saveProduct, hq, hq2] at ih ⊢
      exact ih

theorem visibleProducts_perm (db : List Product) (c : Nat) (s cf : String) :
    (visibleProducts db c s cf).Perm (searchFiltered s (companyProducts db c)) := by
  unfold visibleProducts applyCostFilter
  by_cases h1 : cf == "low"
  · rw [if_pos h1]; exact List.mergeSort_perm _ _
  · rw [if_neg h1]
    by_cases h2 : cf == "high"
    · rw [if_pos h2]; exact List.mergeSort_perm _ _
    · rw [if_neg h2]

theorem mem_visibleProducts {db : List Product} {c : Nat} {s cf : String} {p : Product} :
    p ∈ visibleProducts db c s cf ↔
      p ∈ db ∧ p.company = c ∧ (s ≠ "" → matchesSearch s p = true) := by
  rw [(visibleProducts_perm db c s cf).mem_iff]
  unfold searchFiltered companyProducts
  by_cases h1 : s = ""
  · subst h1
    simp [List.mem_filter]
  · rw [if_neg (by simpa using h1)]
    simp only [List.mem_filter, Bool.and_eq_true, beq_iff_eq]
    constructor
    · rintro ⟨⟨hm, hc⟩, hs⟩
      exact ⟨hm, hc, fun _ => hs⟩
    · rintro ⟨hm, hc, hs⟩
      exact ⟨⟨hm, hc⟩, hs h1⟩

/-! ### Reduction lemmas for the stock endpoints -/

theorem quantity_set_set (p : Product) (a b : Int) :
    ({ { p with quantity := a } with quantity := b } : Product) = { p with quantity := b } := rfl

theorem quantity_set_self (p : Product) :
    ({ p with quantity := p.quantity } : Product) = p := rfl

theorem quantity_set_congr (p : Product) {a b : Int} (h : a = b) :
    ({ p with quantity := a } : Product) = { p with quantity := b } := by rw [h]

theorem increase_stock_of_get {db : List Product} {pr : Profile} {pk : Nat} {p : Product}
    (h : getProduct db pk pr.company = some p) :
    increase_stock db (some pr) .post pk =
      (.ok (p.quantity + 1) (toString (p.quantity + 1)) (p.cost_price * (p.quantity + 1)),
       saveProduct db { p with quantity := p.quantity + 1 }) := by
  simp [increase_stock, h, get_display_quantity, total_value]

theorem decrease_stock_of_get_pos {db : List Product} {pr : Profile} {pk : Nat} {p : Product}
    (h : getProduct db pk pr.company = some p) (hq : 0 < p.quantity) :
    decrease_stock db (some pr) .post pk =
      (.ok (p.quantity - 1) (toString (p.quantity - 1)) (p.cost_price * (p.quantity - 1)),
       saveProduct db { p with quantity := p.quantity - 1 }) := by
  simp [decrease_stock, h, hq, get_display_quantity, total_value]

theorem decrease_stock_of_get_zero {db : List Product} {pr : Profile} {pk : Nat} {p : Product}
    (h : getProduct db pk pr.company = some p) (hq : ¬ 0 < p.quantity) :
    decrease_stock db (some pr) .post pk =
      (.ok p.quantity (toString p.quantity) (p.cost_price * p.quantity), db) := by
  simp [decrease_stock, h, hq, get_display_quantity, total_value]

/-! ### The iterated stock mutations -/

theorem incIter_eq {pr : Profile} {pk : Nat} (n : Nat) :
    ∀ {db : List Product} {p : Product}, uniquePks db →
      getProduct db pk pr.company = some p →
      incIter (some pr) pk n db = saveProduct db { p with quantity := p.quantity + n } := by
  induction n with
  | zero =>
    intro db p hu h
    rw [incIter]
    rw [quantity_set_congr p (by push_cast; ring), quantity_set_self]
    exact (saveProduct_self (fun q hq hpk => own_pk_of_get hu h q hq hpk)).symm
  | succ n ih =>
    intro db p hu h
    have ⟨hm, hpk, hc⟩ := getProduct_mem h
    rw [incIter, (increase_stock_of_get h)]
    have hu1 : uniquePks (saveProduct db { p with quantity := p.quantity + 1 }) :=
      uniquePks_saveProduct hu _
    have h1 : getProduct (saveProduct db { p with quantity := p.quantity + 1 }) pk pr.company
        = some { p with quantity := p.quantity + 1 } :=
      getProduct_saveProduct hpk hc (by rw [h]; rfl)
    rw [ih hu1 h1]
    show saveProduct (saveProduct db { p with quantity := p.quantity + 1 })
        { p with quantity := p.quantity + 1 + (n : Int) }
      = saveProduct db { p with quantity := p.quantity + ((n + 1 : Nat) : Int) }
    rw [quantity_set_congr p
      (show p.quantity + 1 + (n : Int) = p.quantity + ((n + 1 : Nat) : Int) by push_cast; ring)]
    exact saveProduct_saveProduct rfl

theorem decIter_eq {pr : Profile} {pk : Nat} (n : Nat) :
    ∀ {db : List Product} {p : Product}, uniquePks db →
      getProduct db pk pr.company = some p → 0 ≤ p.quantity →
      decIter (some pr) pk n db
        = saveProduct db { p with quantity := p.quantity - min (n : Int) p.quantity } := by
  induction n with
  | zero =>
    intro db p hu h hq
    rw [decIter]
    rw [quantity_set_congr p (show p.quantity - min ((0 : Nat) : Int) p.quantity = p.quantity by omega),
      quantity_set_self]
    exact (saveProduct_self (fun q hq2 hpk => own_pk_of_get hu h q hq2 hpk)).symm
  | succ n ih =>
    intro db p hu h hq
    have ⟨hm, hpk, hc⟩ := getProduct_mem h
    by_cases hpos : 0 < p.quantity
    · rw [decIter, (decrease_stock_of_get_pos h hpos)]
      have hu1 : uniquePks (saveProduct db { p with quantity := p.quantity - 1 }) :=
        uniquePks_saveProduct hu _
      have h1 : getProduct (saveProduct db { p with quantity := p.quantity - 1 }) pk pr.company
          = some { p with quantity := p.quantity - 1 } :=
        getProduct_saveProduct hpk hc (by rw [h]; rfl)
      rw [ih hu1 h1 (by simp; omega)]
      show saveProduct (saveProduct db { p with quantity := p.quantity - 1 })
          { p with quantity := p.quantity - 1 - min (n : Int) (p.quantity - 1) }
        = saveProduct db { p with quantity := p.quantity - min (((n + 1 : Nat)) : Int) p.quantity }
      rw [quantity_set_congr p
        (show p.quantity - 1 - min (n : Int) (p.quantity - 1)
            = p.quantity - min (((n + 1 : Nat)) : Int) p.quantity by push_cast; omega)]
      exact saveProduct_saveProduct rfl
    · rw [decIter, (decrease_stock_of_get_zero h hpos)]
      rw [ih hu h hq]
      rw [quantity_set_congr p
        (show p.quantity - min (n : Int) p.quantity
            = p.quantity - min (((n + 1 : Nat)) : Int) p.quantity by push_cast; omega)]

/-! ### Claim theorems -/

/-- Claim C5 (amended): on a POST with all three fields present, the
registration checks run in the fixed order duplicate username, then password
length < 8, then password mismatch; the first failing check short-circuits,
determines the single error and leaves the account list unchanged.  When all
three checks pass, exactly one account is created provided the username is
non-empty; an empty username passes every check and then makes `create_user`
raise `ValueError` (crash), with zero accounts created. -/
theorem register_order_and_effects (accounts : List String) (u s1 s2 : String) :
    (register_view accounts .post (some u) (some s1) (some s2)
        = (.duplicateUsername, accounts) ↔ u ∈ accounts)
    ∧ (register_view accounts .post (some u) (some s1) (some s2)
        = (.passwordTooShort, accounts)
        ↔ u ∉ accounts ∧ s1.length < 8)
    ∧ (register_view accounts .post (some u) (some s1) (some s2)
        = (.passwordMismatch, accounts)
        ↔ u ∉ accounts ∧ ¬ s1.length < 8 ∧ s1 ≠ s2)
    ∧ (register_view accounts .post (some u) (some s1) (some s2)
        = (.success, accounts ++ [u])
        ↔ u ∉ accounts ∧ ¬ s1.length < 8 ∧ s1 = s2 ∧ u ≠ "")
    ∧ (register_view accounts .post (some u) (some s1) (some s2)
        = (.crash, accounts)
        ↔ u ∉ accounts ∧ ¬ s1.length < 8 ∧ s1 = s2 ∧ u = "")
    ∧ ((register_view accounts .post (some u) (some s1) (some s2)).1 ≠ .success →
        (register_view accounts .post (some u) (some s1) (some s2)).2 = accounts) := by
  by_cases hdup : u ∈ accounts
  · simp [register_view, usernameTaken, hdup]
  · by_cases hlen : s1.length < 8
    · simp [register_view, usernameTaken, hdup, hlen]
    · by_cases heq : s1 = s2
      · subst heq
        by_cases hu0 : u = ""
        · subst hu0
          simp [register_view, usernameTaken, hdup, hlen]
        · simp [register_view, usernameTaken, hdup, hlen, hu0]
      · simp [register_view, usernameTaken, hdup, hlen, heq]

/-- Counterexample to C5 as stated: with an empty username that is not taken
and matching passwords of length 8, every one of the three validation checks
passes, yet `register_view` crashes inside `create_user` (`ValueError` on a
falsy username) and zero accounts are created instead of exactly one. -/
theorem register_empty_username_no_account :
    ("" ∉ ([] : List String))
    ∧ ¬ ("password" : String).length < 8
    ∧ ("password" : String) = "password"
    ∧ register_view [] .post (some "") (some "password") (some "password")
        = (.crash, []) :=
  ⟨by decide, by decide, rfl, by decide⟩

/-- Claim C10: a registration POST in which the `password1` field is absent
(Python `None`) and whose username is not already taken crashes at the
password-length check (`len(None)` raises `TypeError`) instead of producing an
error notice and redirect; no account is created. -/
theorem register_missing_password_crashes (accounts : List String) (u : String)
    (p2 : Option String) (h : u ∉ accounts) :
    register_view accounts .post (some u) none p2 = (.crash, accounts) := by
  simp [register_view, usernameTaken, h]

/-- Witness for C10 at a concrete input. -/
theorem register_missing_password_crashes_witness :
    "alice" ∉ ([] : List String)
    ∧ register_view [] .post (some "alice") none (some "password") = (.crash, []) :=
  ⟨by decide, register_missing_password_crashes [] "alice" (some "password") (by decide)⟩

/-- Claim C6: a successful product add always stores the acting profile's
company on the created row: the view overwrites whatever company value the
client-supplied form data carried (`fp.company` is universally quantified), so
every row present after the add that was not present before belongs to the
acting profile's company. -/
theorem add_company_never_client_controlled (db : List Product) (pr : Profile)
    (fp : Product) :
    product_add db (some pr) .post (some fp)
      = (.added fp.item_name, db ++ [{ fp with company := pr.company, pk := freshPk db }])
    ∧ (∀ q ∈ (product_add db (some pr) .post (some fp)).2,
        q ∉ db → q.company = pr.company) := by
  constructor
  · rfl
  · intro q hq hnot
    simp only [product_add, List.mem_append, List.mem_singleton] at hq
    rcases hq with h1 | h2
    · exact absurd h1 hnot
    · rw [h2]

/-- Claim C3 (amended): with the acting account's profile absent, the list,
detail and add views fail with the profile-missing notice and redirect to the
dashboard with no state change; `product_delete` instead redirects to the
inventory list with a "Product not found." notice; the stock endpoints return
the JSON body `{success: false, error: 'Product not found'}` on POST (and
`{success: false, error: 'Invalid request'}` on non-POST) rather than
redirecting; in every case no inventory data is shown and the database is
unchanged. -/
theorem profile_missing_behavior (db : List Product) (s cf : String) (m : Method)
    (pk : Nat) (f : Option ProductFormData) (fp : Option Product) :
    inventory_list db none s cf = .profileMissing
    ∧ product_detail db none m pk f = (.profileMissing, db)
    ∧ product_add db none m fp = (.profileMissing, db)
    ∧ product_delete db none m pk = (.notFoundRedirect, db)
    ∧ increase_stock db none .post pk = (.notFound, db)
    ∧ decrease_stock db none .post pk = (.notFound, db)
    ∧ increase_stock db none .get pk = (.invalid, db)
    ∧ decrease_stock db none .get pk = (.invalid, db) :=
  ⟨rfl, rfl, rfl, rfl, rfl, rfl, rfl, rfl⟩

/-- Counterexample to C3 as stated: at a concrete input with a missing
profile, a POST to `increase_stock` yields the JSON error body
`{success: false, error: 'Product not found'}` — a `StockResponse`, not a
redirect to a safe landing page — and `product_delete` redirects to the
inventory list with a "Product not found." notice rather than the
profile-missing redirect to the dashboard. -/
theorem profile_missing_not_uniform :
    increase_stock [] none .post 1 = (StockResponse.notFound, [])
    ∧ product_delete [] none .post 1 = (DeleteResponse.notFoundRedirect, []) :=
  ⟨rfl, rfl⟩

/-- Claim C2: for a product of the acting profile's company, a POST to
`decrease_stock` subtracts exactly 1 when the quantity is positive, is a
no-op when the quantity is already 0, reports success with the (possibly
unchanged) new quantity in both cases, and never produces a negative
quantity. -/
theorem decrease_stock_clamps {db : List Product} {pr : Profile} {pk : Nat}
    {p : Product} (h : getProduct db pk pr.company = some p) (hq : 0 ≤ p.quantity) :
    (0 < p.quantity →
       decrease_stock db (some pr) .post pk =
         (.ok (p.quantity - 1) (toString (p.quantity - 1)) (p.cost_price * (p.quantity - 1)),
          saveProduct db { p with quantity := p.quantity - 1 }))
    ∧ (p.quantity = 0 →
       decrease_stock db (some pr) .post pk =
         (.ok 0 (toString (0 : Int)) (p.cost_price * 0), db))
    ∧ (∀ q d t, (decrease_stock db (some pr) .post pk).1 = .ok q d t → 0 ≤ q) := by
  refine ⟨fun hpos => decrease_stock_of_get_pos h hpos, fun h0 => ?_, ?_⟩
  · rw [decrease_stock_of_get_zero h (by omega)]
    rw [h0]
  · intro q d t hok
    by_cases hpos : 0 < p.quantity
    · rw [decrease_stock_of_get_pos h hpos] at hok
      simp only [StockResponse.ok.injEq] at hok
      omega
    · rw [decrease_stock_of_get_zero h hpos] at hok
      simp only [StockResponse.ok.injEq] at hok
      omega

/-- Witness for C2 at a concrete input. -/
theorem decrease_stock_clamps_witness :
    getProduct [⟨1, "w", "c", 5, 3, 2⟩] 1 (Profile.mk 2 "staff").company
        = some ⟨1, "w", "c", 5, 3, 2⟩
    ∧ (0 : Int) ≤ 3
    ∧ (0 < (3 : Int) →
        decrease_stock [⟨1, "w", "c", 5, 3, 2⟩] (some ⟨2, "staff"⟩) .post 1 =
          (.ok 2 (toString (2 : Int)) (5 * 2 : Int),
           saveProduct [⟨1, "w", "c", 5, 3, 2⟩] ⟨1, "w", "c", 5, 2, 2⟩)) :=
  ⟨by decide, by decide,
   fun hpos => by
    have := (decrease_stock_clamps (by decide : getProduct [⟨1, "w", "c", 5, 3, 2⟩] 1
        (Profile.mk 2 "staff").company = some ⟨1, "w", "c", 5, 3, 2⟩) (by decide)).1 hpos
    simpa using this⟩

/-- Claim C7: for a product of the acting profile's company with a
non-negative quantity, `n` POSTs to `increase_stock` followed by `n` POSTs to
`decrease_stock` restore the database — in particular the product's original
quantity — for every `n ≥ 0`. -/
theorem stock_roundtrip {db : List Product} {pr : Profile} {pk : Nat} {p : Product}
    (n : Nat) (hu : uniquePks db) (h : getProduct db pk pr.company = some p)
    (hq : 0 ≤ p.quantity) :
    decIter (some pr) pk n (incIter (some pr) pk n db) = db := by
  have ⟨hm, hpk, hc⟩ := getProduct_mem h
  rw [incIter_eq n hu h]
  have hu1 : uniquePks (saveProduct db { p with quantity := p.quantity + (n : Int) }) :=
    uniquePks_saveProduct hu _
  have h1 : getProduct (saveProduct db { p with quantity := p.quantity + (n : Int) })
      pk pr.company = some { p with quantity := p.quantity + (n : Int) } :=
    getProduct_saveProduct hpk hc (by rw [h]; rfl)
  rw [decIter_eq n hu1 h1 (by show (0 : Int) ≤ p.quantity + (n : Int); omega)]
  show saveProduct (saveProduct db { p with quantity := p.quantity + (n : Int) })
      { p with quantity :=
          (p.quantity + (n : Int)) - min (n : Int) (p.quantity + (n : Int)) } = db
  rw [quantity_set_congr p
    (show (p.quantity + (n : Int)) - min (n : Int) (p.quantity + (n : Int)) = p.quantity
      by omega)]
  rw [quantity_set_self p]
  have hss : saveProduct (saveProduct db { p with quantity := p.quantity + (n : Int) }) p
      = saveProduct db p := saveProduct_saveProduct rfl
  rw [hss, saveProduct_self (own_pk_of_get hu h)]

/-- Witness for C7 at a concrete input. -/
theorem stock_roundtrip_witness :
    uniquePks [Product.mk 1 "a" "b" 2 3 9]
    ∧ getProduct [Product.mk 1 "a" "b" 2 3 9] 1 (Profile.mk 9 "staff").company
        = some (Product.mk 1 "a" "b" 2 3 9)
    ∧ (0 : Int) ≤ (Product.mk 1 "a" "b" 2 3 9).quantity
    ∧ decIter (some (Profile.mk 9 "staff")) 1 2 (incIter (some (Profile.mk 9 "staff")) 1 2
        [Product.mk 1 "a" "b" 2 3 9]) = [Product.mk 1 "a" "b" 2 3 9] :=
  have hg : getProduct [Product.mk 1 "a" "b" 2 3 9] 1 (Profile.mk 9 "staff").company
      = some (Product.mk 1 "a" "b" 2 3 9) := by decide
  ⟨by decide, hg, by decide, stock_roundtrip 2 (by decide) hg (by decide)⟩

/-- Claim C8: the `total_inventory_value` of the listing page equals the sum
of `cost_price * quantity` over exactly the products displayed on the page,
which are a permutation of the search-filtered company products, not the
whole company inventory. -/
theorem total_value_matches_filtered (db : List Product) (pr : Profile)
    (s cf : String) :
    ∃ ctx, inventory_list db (some pr) s cf = .page (pr.role == "business_owner") ctx
      ∧ ctx.total_inventory_value
          = (ctx.products.map (fun p => p.cost_price * p.quantity)).sum
      ∧ ctx.products.Perm (searchFiltered s (companyProducts db pr.company)) := by
  exact ⟨_, rfl, rfl, visibleProducts_perm db pr.company s cf⟩

/-- Claim C9: a product appears on the listing page exactly when it belongs to
the database and to the acting profile's company and — whenever the search
string is non-empty — its name or its category contains the search string as a
case-insensitive substring (logical OR); an empty search string applies no
filter. -/
theorem search_is_ci_or (db : List Product) (pr : Profile) (s cf : String) :
    ∃ ctx, inventory_list db (some pr) s cf = .page (pr.role == "business_owner") ctx
      ∧ ∀ p, p ∈ ctx.products ↔
          p ∈ db ∧ p.company = pr.company ∧
            (s ≠ "" →
              (strContains p.item_name s = true ∨ strContains p.category s = true)) := by
  refine ⟨_, rfl, fun p => ?_⟩
  show p ∈ visibleProducts db pr.company s cf ↔ _
  rw [mem_visibleProducts]
  simp [matchesSearch]

/-- Claim C4: a staff profile's POST edit or delete attempt on a product of
its own company is answered with the access-denied notice and leaves the
database unchanged, while staff listing (staff template), viewing, adding and
stock mutations are all permitted. -/
theorem staff_role_gating (db : List Product) (pr : Profile)
    (hrole : pr.role = "staff") :
    (∀ pk p f, getProduct db pk pr.company = some p →
        product_detail db (some pr) .post pk f = (.accessDenied, db))
    ∧ (∀ m pk p, getProduct db pk pr.company = some p →
        product_delete db (some pr) m pk = (.accessDenied, db))
    ∧ (∀ s cf, ∃ ctx, inventory_list db (some pr) s cf = .page false ctx)
    ∧ (∀ pk p, getProduct db pk pr.company = some p →
        product_detail db (some pr) .get pk none = (.page false p, db))
    ∧ (∀ fp, product_add db (some pr) .post (some fp)
        = (.added fp.item_name,
           db ++ [{ fp with company := pr.company, pk := freshPk db }]))
    ∧ (∀ pk p, getProduct db pk pr.company = some p →
        increase_stock db (some pr) .post pk
          = (.ok (p.quantity + 1) (toString (p.quantity + 1))
               (p.cost_price * (p.quantity + 1)),
             saveProduct db { p with quantity := p.quantity + 1 }))
    ∧ (∀ pk p, getProduct db pk pr.company = some p →
        ∃ q d t, (decrease_stock db (some pr) .post pk).1 = .ok q d t) := by
  refine ⟨?_, ?_, ?_, ?_, ?_, ?_, ?_⟩
  · intro pk p f h
    simp [product_detail, h, hrole]
  · intro m pk p h
    simp [product_delete, h, hrole]
  · intro s cf
    exact ⟨⟨visibleProducts db pr.company s cf, s, cf,
      ((visibleProducts db pr.company s cf).map total_value).sum⟩,
      by simp [inventory_list, hrole]⟩
  · intro pk p h
    simp [product_detail, h, hrole]
  · intro fp
    rfl
  · intro pk p h
    exact increase_stock_of_get h
  · intro pk p h
    by_cases hpos : 0 < p.quantity
    · exact ⟨_, _, _, by rw [decrease_stock_of_get_pos h hpos]⟩
    · exact ⟨_, _, _, by rw [decrease_stock_of_get_zero h hpos]⟩

/-- Witness for C4 at a concrete input. -/
theorem staff_role_gating_witness :
    (Profile.mk 7 "staff").role = "staff"
    ∧ product_detail [Product.mk 1 "a" "b" 2 3 7] (some (Profile.mk 7 "staff")) .post 1 none
        = (.accessDenied, [Product.mk 1 "a" "b" 2 3 7]) :=
  ⟨rfl, (staff_role_gating [Product.mk 1 "a" "b" 2 3 7] (Profile.mk 7 "staff") rfl).1
      1 (Product.mk 1 "a" "b" 2 3 7) none (by decide)⟩

/-- Claim C1: tenant isolation for every inventory operation: the listing
only ever shows rows of the acting profile's company; a primary key whose row
belongs to a different company resolves exactly like a nonexistent one, so
detail, edit, delete and the stock endpoints answer with their not-found
response and leave the database unchanged; and no operation, whatever its
inputs, ever changes a row belonging to another company. -/
theorem tenant_isolation (db : List Product) (pr : Profile) (hu : uniquePks db) :
    (∀ s cf v ctx, inventory_list db (some pr) s cf = .page v ctx →
        ∀ p ∈ ctx.products, p.company = pr.company)
    ∧ (∀ pk p, p ∈ db → p.pk = pk → p.company ≠ pr.company →
        getProduct db pk pr.company = none)
    ∧ (∀ pk, getProduct db pk pr.company = none →
        (∀ m f, product_detail db (some pr) m pk f = (.notFound, db))
        ∧ (∀ m, product_delete db (some pr) m pk = (.notFoundRedirect, db))
        ∧ increase_stock db (some pr) .post pk = (.notFound, db)
        ∧ decrease_stock db (some pr) .post pk = (.notFound, db))
    ∧ (∀ m pk f, othersOf (product_detail db (some pr) m pk f).2 pr.company
        = othersOf db pr.company)
    ∧ (∀ m fp, othersOf (product_add db (some pr) m fp).2 pr.company
        = othersOf db pr.company)
    ∧ (∀ m pk, othersOf (product_delete db (some pr) m pk).2 pr.company
        = othersOf db pr.company)
    ∧ (∀ m pk, othersOf (increase_stock db (some pr) m pk).2 pr.company
        = othersOf db pr.company)
    ∧ (∀ m pk, othersOf (decrease_stock db (some pr) m pk).2 pr.company
        = othersOf db pr.company) := by
  refine ⟨?_, ?_, ?_, ?_, ?_, ?_, ?_, ?_⟩
  · intro s cf v ctx hpage p hp
    have h2 : ListResponse.page (pr.role == "business_owner")
        ⟨visibleProducts db pr.company s cf, s, cf,
          ((visibleProducts db pr.company s cf).map total_value).sum⟩
        = .page v ctx := hpage
    injection h2 with hv hctx
    rw [← hctx] at hp
    exact (mem_visibleProducts.mp hp).2.1
  · intro pk p hm hpk hc
    exact getProduct_eq_none_of_cross hu hm hpk hc
  · intro pk hnone
    refine ⟨?_, ?_, ?_, ?_⟩
    · intro m f
      cases m <;> simp [product_detail, hnone]
    · intro m
      cases m <;> simp [product_delete, hnone]
    · simp [increase_stock, hnone]
    · simp [decrease_stock, hnone]
  · intro m pk f
    cases hget : getProduct db pk pr.company with
    | none => cases m <;> simp [product_detail, hget]
    | some p0 =>
      have ⟨hm0, hpk0, hc0⟩ := getProduct_mem hget
      cases m with
      | get => simp [product_detail, hget]
      | post =>
        by_cases hrole : pr.role = "business_owner"
        · cases f with
          | none => simp [product_detail, hget, hrole]
          | some f0 =>
            simp only [product_detail, hget, hrole]
            simp only [bne_self_eq_false, Bool.false_eq_true, if_false, ite_false]
            refine othersOf_saveProduct hc0 ?_
            intro q hq hpkq
            have hqp : q = p0 := own_pk_of_get hu hget q hq hpkq
            rw [hqp]
            exact hc0
        · simp [product_detail, hget, hrole]
  · intro m fp
    cases m with
    | get => cases fp <;> rfl
    | post =>
      cases fp with
      | none => rfl
      | some f0 => exact othersOf_append_own rfl
  · intro m pk
    cases hget : getProduct db pk pr.company with
    | none => simp [product_delete, hget]
    | some p0 =>
      have ⟨hm0, hpk0, hc0⟩ := getProduct_mem hget
      by_cases hrole : pr.role = "business_owner"
      · cases m with
        | get => simp [product_delete, hget, hrole]
        | post =>
          simp only [product_delete, hget, hrole]
          simp only [bne_self_eq_false, Bool.false_eq_true, if_false, ite_false]
          refine othersOf_deleteProduct ?_
          intro q hq hpkq
          have hqp : q = p0 := own_pk_of_get hu hget q hq hpkq
          rw [hqp]
          exact hc0
      · simp [product_delete, hget, hrole]
  · intro m pk
    cases m with
    | get => rfl
    | post =>
      cases hget : getProduct db pk pr.company with
      | none => simp [increase_stock, hget]
      | some p0 =>
        have ⟨hm0, hpk0, hc0⟩ := getProduct_mem hget
        rw [increase_stock_of_get hget]
        refine othersOf_saveProduct hc0 ?_
        intro q hq hpkq
        have hqp : q = p0 := own_pk_of_get hu hget q hq hpkq
        rw [hqp]
        exact hc0
  · intro m pk
    cases m with
    | get => rfl
    | post =>
      cases hget : getProduct db pk pr.company with
      | none => simp [decrease_stock, hget]
      | some p0 =>
        have ⟨hm0, hpk0, hc0⟩ := getProduct_mem hget
        by_cases hpos : 0 < p0.quantity
        · rw [decrease_stock_of_get_pos hget hpos]
          refine othersOf_saveProduct hc0 ?_
          intro q hq hpkq
          have hqp : q = p0 := own_pk_of_get hu hget q hq hpkq
          rw [hqp]
          exact hc0
        · rw [decrease_stock_of_get_zero hget hpos]

/-- Witness for C1 at a concrete two-company database. -/
theorem tenant_isolation_witness :
    uniquePks [Product.mk 1 "a" "b" 2 3 1, Product.mk 2 "c" "d" 4 5 2]
    ∧ increase_stock [Product.mk 1 "a" "b" 2 3 1, Product.mk 2 "c" "d" 4 5 2]
        (some (Profile.mk 1 "staff")) .post 2
      = (.notFound, [Product.mk 1 "a" "b" 2 3 1, Product.mk 2 "c" "d" 4 5 2]) :=
  ⟨by decide,
   ((tenant_isolation [Product.mk 1 "a" "b" 2 3 1, Product.mk 2 "c" "d" 4 5 2]
      (Profile.mk 1 "staff") (by decide)).2.2.1 2 (by decide)).2.2.1⟩
